import Mathlib

/-!
# Async-Logger: a step-function model of `logger_async.cpp`

The asynchronous `Logger` of `src/logger.cpp/logger_async.cpp` is embedded as an
executable transition function `step : State → Action → Option State`.

* Every block the source runs under `mtx` (or between two lock acquisitions) is one
  atomic action.
* `none` means that the action is not enabled in that state: the calling thread stays
  blocked inside a condition-variable wait, or the program counter of the thread is
  elsewhere.
* `cv.wait(lk, pred)` is `while (!pred()) cv.wait(lk);`: the predicate is evaluated under
  the lock before any blocking, and the call gets past the wait only in a state where the
  predicate holds.
* `currentDateTime()` reads the clock; the timestamp is an input of the `log` action.
* Whether an insertion into the stream succeeds is decided by the environment (disk full,
  permission revoked): the outcome is an input of the `workerWrite` action. The source
  tests `file.is_open()` only and never the stream state; after a failed insertion the
  stream is no longer `good()`, and `operator<<` on such a stream writes nothing.

The fields `pushed`, `consumed` and `written` of `State` are history variables: the source
has no such members, no guard of `step` reads them, and they only record what happened.
-/

namespace AsyncLogger

/-- The value of an `enum Level {INFO, WARNING, ERROR}` object, as an integer. -/
abbrev Level := Int

def INFO : Level := 0
def WARNING : Level := 1
def ERROR : Level := 2

/-- Source: `Logger::levelToStr` (logger_async.cpp, lines 88-95). -/
def levelToStr (l : Level) : String :=
  if l = INFO then "INFO"
  else if l = WARNING then "WARN"
  else if l = ERROR then "ERROR"
  else "UNK"

/-- Source: `Logger::formatLine` (logger_async.cpp, lines 98-100); `ts` stands for the result of
`currentDateTime()`. -/
def formatLine (ts : String) (level : Level) (msg : String) : String :=
  ts ++ " [" ++ levelToStr level ++ "] " ++ msg

/-- What the environment does with one insertion `file << item << std::endl` (line 133) on
a stream that is open and in good state. -/
inductive WriteOutcome where
  /-- all bytes of the line and its newline reach the file -/
  | ok
  /-- the insertion fails after `delivered` bytes of the line and its newline reached the
  file; the stream leaves the good state -/
  | failed (delivered : Nat)
  deriving DecidableEq

/-- Where the worker thread stands in `Logger::workerLoop` (lines 103-151). -/
inductive WorkerPc where
  /-- at `cv.wait` of line 112, top of the loop -/
  | waiting
  /-- lines 123-126 done: `item` holds the dequeued line, the lock is released -/
  | holding (item : String)
  /-- lines 131-135 done, before the block of lines 140-149 -/
  | notifying
  /-- returned at line 119 -/
  | done
  deriving DecidableEq

/-- Where the owner of the object stands with respect to `Logger::~Logger` (lines 34-45). -/
inductive DtorPc where
  /-- the destructor has not started -/
  | alive
  /-- lines 35-40 done (`exit_flag` set, worker notified), `worker.join()` pending -/
  | joining
  /-- the call `worker.join()` returned and the file is closed -/
  | finished
  deriving DecidableEq

/-- The members of `Logger` that the claims observe, the two program counters, and the
history variables. -/
structure State where
  /-- member `std::queue<std::string> q`, front first -/
  q : List String
  /-- member `bool exit_flag` -/
  exit_flag : Bool
  /-- value of `file.is_open()` -/
  fileOpen : Bool
  /-- value of `file.good()`: the stream was opened and no insertion has failed -/
  good : Bool
  /-- the bytes of the destination file -/
  content : String
  worker : WorkerPc
  dtor : DtorPc
  /-- history: producer and line of every `q.push`, in the order the pushes happened -/
  pushed : List (Nat × String)
  /-- history: every `item` that went through lines 131-135 -/
  consumed : List String
  /-- history: every `item` whose insertion at line 133 succeeded -/
  written : List String
  deriving DecidableEq

/-- The atomic actions of the threads that share a `Logger`. -/
inductive Action where
  /-- call of `Logger::log` by thread `producer`, the clock reading `ts` -/
  | log (producer : Nat) (ts : String) (level : Level) (msg : String)
  /-- call of `Logger::waitEmpty`: a test of its wait predicate under the lock -/
  | waitEmpty
  /-- destructor `~Logger`, lines 35-40 -/
  | destroy
  /-- destructor `~Logger`, lines 41-42 -/
  | join
  /-- worker, lines 107-126 -/
  | workerWake
  /-- worker, lines 131-135; `out` is what becomes of the insertion if one is attempted -/
  | workerWrite (out : WriteOutcome)
  /-- worker, lines 140-149 -/
  | workerNotify
  deriving DecidableEq

/-- The state right after the constructor (lines 18-28): `opened` tells whether the
`std::ofstream` could be opened, `c0` is what the destination held before (append mode
keeps it). -/
def init (opened : Bool) (c0 : String) : State :=
  { q := [], exit_flag := false, fileOpen := opened, good := opened, content := c0,
    worker := .waiting, dtor := .alive, pushed := [], consumed := [], written := [] }

/-- The first `n` bytes of `str`. -/
def cut (n : Nat) (str : String) : String :=
  String.mk (str.data.take n)

/-- One atomic action of the program. -/
def step (s : State) : Action → Option State
  | .log producer ts level msg =>
    -- lines 48-54
    let line := formatLine ts level msg
    some { s with q := s.q ++ [line], pushed := s.pushed ++ [(producer, line)] }
  | .waitEmpty =>
    -- lines 59-60: returns once `q.empty()` is observed
    if s.q.isEmpty then some s else none
  | .destroy =>
    -- lines 35-40
    match s.dtor with
    | .alive => some { s with exit_flag := true, dtor := .joining }
    | _ => none
  | .join =>
    -- lines 41-42: `join` returns once the worker has returned
    match s.dtor, s.worker with
    | .joining, .done => some { s with fileOpen := false, dtor := .finished }
    | _, _ => none
  | .workerWake =>
    match s.worker with
    | .waiting =>
      -- line 112
      if s.exit_flag || !s.q.isEmpty then
        -- line 117
        if s.exit_flag && s.q.isEmpty then some { s with worker := .done }
        else
          -- lines 123-124
          match s.q with
          | [] => none
          | item :: rest => some { s with q := rest, worker := .holding item }
      else none
    | _ => none
  | .workerWrite out =>
    match s.worker with
    | .holding item =>
      -- line 131: only `is_open()` is tested
      if s.fileOpen then
        -- lines 133-134: `operator<<` does nothing on a stream that is not good
        if s.good then
          match out with
          | .ok =>
            some { s with content := s.content ++ item ++ "\n",
                          written := s.written ++ [item],
                          consumed := s.consumed ++ [item],
                          worker := .notifying }
          | .failed delivered =>
            some { s with content := s.content ++ cut delivered (item ++ "\n"),
                          good := false,
                          consumed := s.consumed ++ [item],
                          worker := .notifying }
        else
          some { s with consumed := s.consumed ++ [item], worker := .notifying }
      else
        some { s with consumed := s.consumed ++ [item], worker := .notifying }
    | _ => none
  | .workerNotify =>
    match s.worker with
    | .notifying =>
      -- lines 140-149: `cv_empty.notify_all()` only wakes threads blocked in `waitEmpty`
      some { s with worker := .waiting }
    | _ => none

/-- An execution: the actions of a schedule, one after the other. -/
def run (s : State) : List Action → Option State
  | [] => some s
  | a :: rest => (step s a).bind (fun s1 => run s1 rest)

/-- The line held in the worker's local `item`, if any. -/
def inHand : WorkerPc → List String
  | .holding item => [item]
  | _ => []

/-- The bytes that successful insertions of the lines `ws` at line 133 append to the file. -/
def render : List String → String
  | [] => ""
  | w :: ws => w ++ "\n" ++ render ws

/-- The `log` calls of a schedule, in order: the calling producer and the formatted line. -/
def tagged : List Action → List (Nat × String)
  | [] => []
  | .log producer ts level msg :: rest => (producer, formatLine ts level msg) :: tagged rest
  | _ :: rest => tagged rest

/-- The formatted lines of the `log` calls of a schedule, in order. -/
def submitted (acts : List Action) : List String :=
  (tagged acts).map Prod.snd

def isLog : Action → Bool
  | .log _ _ _ _ => true
  | _ => false

/-- No insertion of the schedule is one the environment lets fail. -/
def writesOk : List Action → Bool
  | [] => true
  | .workerWrite (.failed _) :: _ => false
  | _ :: rest => writesOk rest

/-- No `log` call of the schedule comes after the destructor has set `exit_flag`. -/
def noLogAfterDestroy : List Action → Bool
  | [] => true
  | .destroy :: rest => rest.all (fun a => !isLog a)
  | _ :: rest => noLogAfterDestroy rest

/-- The lines of producer `p` among tagged lines. -/
def linesOf (p : Nat) (tagged : List (Nat × String)) : List String :=
  (tagged.filter (fun e => e.1 == p)).map Prod.snd

/-- The worker's actions that bring it from its current position back to line 112, the
environment letting the insertion succeed. -/
def toWait : WorkerPc → List Action
  | .holding _ => [.workerWrite .ok, .workerNotify]
  | .notifying => [.workerNotify]
  | _ => []

/-- The worker's loop body, `n` times, the environment letting every insertion succeed. -/
def cycles : Nat → List Action
  | 0 => []
  | n + 1 => .workerWake :: .workerWrite .ok :: .workerNotify :: cycles n

/-- The worker running alone until the queue is empty and it is back at line 112. -/
def emptySchedule (s : State) : List Action :=
  toWait s.worker ++ cycles s.q.length

/-- The worker running alone until the queue is empty and it has returned. -/
def drainSchedule (s : State) : List Action :=
  emptySchedule s ++ [.workerWake]

/-! ### Invariants -/

/-- The facts that hold in every state an execution reaches from `init opened c0`. -/
structure Inv (opened : Bool) (c0 : String) (s : State) : Prop where
  conserve : s.consumed ++ inHand s.worker ++ s.q = s.pushed.map Prod.snd
  finished_done : s.dtor = .finished → s.worker = .done
  done_exit : s.worker = .done → s.exit_flag = true
  exit_dtor : s.exit_flag = true ↔ s.dtor ≠ .alive
  sinkOpen : opened = true → s.dtor ≠ .finished → s.fileOpen = true
  sinkShut : opened = false → s.fileOpen = false ∧ s.written = [] ∧ s.content = c0
  intact : s.good = true → s.written = s.consumed ∧ s.content = c0 ++ render s.written
  ordered : s.written <+: s.consumed
  shutBad : s.fileOpen = false → s.good = true → s.worker = .done

/-- What the worker, running alone from `s` with every insertion allowed to succeed, has
done when it reaches `s'` after taking the lines `ls` through lines 131-135. -/
structure Drains (s s' : State) (ls : List String) : Prop where
  queue : s'.q = []
  consumed : s'.consumed = s.consumed ++ ls
  flag : s'.exit_flag = s.exit_flag
  sink : s'.fileOpen = s.fileOpen
  state : s'.good = s.good
  dtor : s'.dtor = s.dtor
  pushed : s'.pushed = s.pushed
  opened : s.fileOpen = true → s.good = true →
    s'.written = s.written ++ ls ∧ s'.content = s.content ++ render ls
  shut : s.fileOpen = false → s'.written = s.written ∧ s'.content = s.content

/-! ### Concrete executions used to exercise the theorems -/

/-- Two producers log one line each, then the worker dequeues the first line. -/
def actsPop : List Action :=
  [.log 1 "t" INFO "a", .log 2 "t" ERROR "b", .workerWake]

/-- The state `actsPop` leads to from `init true "old\n"`. -/
def statePop : State :=
  { q := ["t [ERROR] b"], exit_flag := false, fileOpen := true, good := true,
    content := "old\n", worker := .holding "t [INFO] a", dtor := .alive,
    pushed := [(1, "t [INFO] a"), (2, "t [ERROR] b")], consumed := [], written := [] }

/-- As `actsPop`, and the worker writes the line it holds. -/
def actsWrite : List Action :=
  actsPop ++ [.workerWrite .ok]

/-- The state `actsWrite` leads to from `init true "old\n"`. -/
def stateWrite : State :=
  { q := ["t [ERROR] b"], exit_flag := false, fileOpen := true, good := true,
    content := "old\nt [INFO] a\n", worker := .notifying, dtor := .alive,
    pushed := [(1, "t [INFO] a"), (2, "t [ERROR] b")], consumed := ["t [INFO] a"],
    written := ["t [INFO] a"] }

/-- As `actsPop`, and the insertion of the held line fails after three bytes. -/
def actsTorn : List Action :=
  actsPop ++ [.workerWrite (.failed 3)]

/-- The state `actsTorn` leads to from `init true "old\n"`: the sink is still open, the
line is cut after `t [`, and it is neither written, nor held, nor queued. -/
def stateTorn : State :=
  { q := ["t [ERROR] b"], exit_flag := false, fileOpen := true, good := false,
    content := "old\nt [", worker := .notifying, dtor := .alive,
    pushed := [(1, "t [INFO] a"), (2, "t [ERROR] b")], consumed := ["t [INFO] a"],
    written := [] }

/-- The destructor has set `exit_flag`; the worker has not run yet. -/
def stateShutdown : State :=
  { q := [], exit_flag := true, fileOpen := true, good := true, content := "old\n",
    worker := .waiting, dtor := .joining, pushed := [], consumed := [], written := [] }

/-- One line is logged and the worker dequeues it. -/
def actsRace : List Action :=
  [.log 1 "t" INFO "a", .workerWake]

/-- The state `actsRace` leads to from `init true ""`: the queue is empty, the line is in
the worker's `item`, nothing is in the file. -/
def stateRace : State :=
  { q := [], exit_flag := false, fileOpen := true, good := true, content := "",
    worker := .holding "t [INFO] a", dtor := .alive,
    pushed := [(1, "t [INFO] a")], consumed := [], written := [] }

/-- Two lines are logged, the destructor sets `exit_flag`, and the worker takes both lines
through its loop and returns. -/
def actsShutdown : List Action :=
  [.log 1 "t" INFO "a", .log 2 "t" ERROR "b", .destroy,
   .workerWake, .workerWrite .ok, .workerNotify,
   .workerWake, .workerWrite .ok, .workerNotify, .workerWake]

/-- The state `actsShutdown` leads to from `init true "old\n"`. -/
def stateDone : State :=
  { q := [], exit_flag := true, fileOpen := true, good := true,
    content := "old\nt [INFO] a\nt [ERROR] b\n", worker := .done, dtor := .joining,
    pushed := [(1, "t [INFO] a"), (2, "t [ERROR] b")],
    consumed := ["t [INFO] a", "t [ERROR] b"], written := ["t [INFO] a", "t [ERROR] b"] }

/-- The state `actsShutdown` leads to from `init false "old\n"`. -/
def stateDoneShut : State :=
  { q := [], exit_flag := true, fileOpen := false, good := false,
    content := "old\n", worker := .done, dtor := .joining,
    pushed := [(1, "t [INFO] a"), (2, "t [ERROR] b")],
    consumed := ["t [INFO] a", "t [ERROR] b"], written := [] }

/-- As `actsShutdown`, but the first insertion fails after three bytes. -/
def actsShutdownTorn : List Action :=
  [.log 1 "t" INFO "a", .log 2 "t" ERROR "b", .destroy,
   .workerWake, .workerWrite (.failed 3), .workerNotify,
   .workerWake, .workerWrite .ok, .workerNotify, .workerWake]

/-- The state `actsShutdownTorn` leads to from `init true "old\n"`: the worker has returned
with the sink open, the first line cut and the second line absent. -/
def stateDoneTorn : State :=
  { q := [], exit_flag := true, fileOpen := true, good := false,
    content := "old\nt [", worker := .done, dtor := .joining,
    pushed := [(1, "t [INFO] a"), (2, "t [ERROR] b")],
    consumed := ["t [INFO] a", "t [ERROR] b"], written := [] }

/-- One call `log(INFO, "start")` at clock reading `t`, the worker dequeues the line, and
the insertion fails after three bytes. -/
def actsStartTorn : List Action :=
  [.log 1 "t" INFO "start", .workerWake, .workerWrite (.failed 3)]

/-- The state `actsStartTorn` leads to from `init true ""`. -/
def stateStartTorn : State :=
  { q := [], exit_flag := false, fileOpen := true, good := false,
    content := "t [", worker := .notifying, dtor := .alive,
    pushed := [(1, "t [INFO] start")], consumed := ["t [INFO] start"], written := [] }

/-- The scenario of the specification: `log(INFO, "start")`, `log(ERROR, "boom")`, the
worker takes both lines through its loop, every insertion succeeding. -/
def actsScenario (ts1 ts2 : String) : List Action :=
  [.log 1 ts1 INFO "start", .log 1 ts2 ERROR "boom",
   .workerWake, .workerWrite .ok, .workerNotify,
   .workerWake, .workerWrite .ok, .workerNotify]

/-- A logger that has logged one line, written it and is idle again. -/
def stateIdle : State :=
  { q := [], exit_flag := false, fileOpen := true, good := true,
    content := "old\nt [INFO] a\n", worker := .waiting, dtor := .alive,
    pushed := [(1, "t [INFO] a")], consumed := ["t [INFO] a"], written := ["t [INFO] a"] }

/-- After `stateIdle`, the destructor sets `exit_flag` and the worker returns. -/
def stateIdleDone : State :=
  { stateIdle with exit_flag := true, worker := .done, dtor := .joining }

end AsyncLogger

namespace SyncLogger

/-- Source: `Logger::levelToString` of the synchronous variant (logger.cpp, lines 41-49). -/
def levelToString (level : AsyncLogger.Level) : String :=
  if level = AsyncLogger.INFO then "INFO"
  else if level = AsyncLogger.WARNING then "WARNING"
  else if level = AsyncLogger.ERROR then "ERROR"
  else "UNKNOWN"

end SyncLogger

namespace AsyncLogger

/-! ## Elementary facts -/

theorem render_snoc (ws : List String) (w : String) :
    render (ws ++ [w]) = render ws ++ w ++ "\n" := by
  induction ws with
  | nil => simp [render, String.append_empty, String.empty_append]
  | cons x xs ih => simp [render, ih, String.append_assoc]

theorem run_append (s : State) (as bs : List Action) :
    run s (as ++ bs) = (run s as).bind (fun s1 => run s1 bs) := by
  induction as generalizing s with
  | nil => simp [run]
  | cons a rest ih =>
    simp only [List.cons_append, run]
    cases step s a with
    | none => simp
    | some s1 => simpa using ih s1

theorem inv_init (opened : Bool) (c0 : String) : Inv opened c0 (init opened c0) := by
  constructor <;> simp [init, inHand, render, String.append_empty]

theorem inv_step {opened : Bool} {c0 : String} {s s' : State} {a : Action}
    (h : Inv opened c0 s) (hs : step s a = some s') : Inv opened c0 s' := by
  obtain ⟨h1, h2, h3, h4, h5, h6, h7, h8, h9⟩ := h
  cases a <;> simp only [step] at hs <;> (repeat' split at hs) <;> cases hs <;>
    (constructor <;>
      first
      | (simp_all [inHand, render_snoc, String.append_assoc]; done)
      | exact h8.trans (List.prefix_append _ _)
      | (intro hg
         have hd := h9 (by simpa using ‹¬s.fileOpen = true›) hg
         simp_all)
      | simp_all [← List.append_assoc])

theorem inv_run {opened : Bool} {c0 : String} {s s' : State} {acts : List Action}
    (h : Inv opened c0 s) (hr : run s acts = some s') : Inv opened c0 s' := by
  induction acts generalizing s with
  | nil =>
    simp only [run, Option.some.injEq] at hr
    exact hr ▸ h
  | cons a rest ih =>
    simp only [run] at hr
    cases hstep : step s a with
    | none => simp [hstep] at hr
    | some s1 =>
      rw [hstep] at hr
      exact ih (inv_step h hstep) hr

theorem inv_reach {opened : Bool} {c0 : String} {s : State} {acts : List Action}
    (hr : run (init opened c0) acts = some s) : Inv opened c0 s :=
  inv_run (inv_init opened c0) hr

theorem pushed_step {s s' : State} {a : Action} (hs : step s a = some s') :
    s'.pushed = s.pushed ++ tagged [a] := by
  cases a <;> simp only [step] at hs <;> (repeat' split at hs) <;> cases hs <;>
    simp [tagged]

theorem tagged_cons (a : Action) (rest : List Action) :
    tagged (a :: rest) = tagged [a] ++ tagged rest := by
  cases a <;> simp [tagged]

theorem pushed_run {s s' : State} {acts : List Action} (hr : run s acts = some s') :
    s'.pushed = s.pushed ++ tagged acts := by
  induction acts generalizing s with
  | nil =>
    simp only [run, Option.some.injEq] at hr
    subst hr
    simp [tagged]
  | cons a rest ih =>
    simp only [run] at hr
    cases hstep : step s a with
    | none => simp [hstep] at hr
    | some s1 =>
      rw [hstep] at hr
      rw [ih hr, pushed_step hstep, tagged_cons a rest, List.append_assoc]

theorem pushed_reach {opened : Bool} {c0 : String} {s : State} {acts : List Action}
    (hr : run (init opened c0) acts = some s) : s.pushed = tagged acts := by
  simpa [init] using pushed_run hr

theorem conserve_reach {opened : Bool} {c0 : String} {s : State} {acts : List Action}
    (hr : run (init opened c0) acts = some s) :
    s.consumed ++ inHand s.worker ++ s.q = submitted acts := by
  rw [submitted, ← pushed_reach hr]
  exact (inv_reach hr).conserve

theorem step_good {s s' : State} {a : Action} (hs : step s a = some s')
    (ha : writesOk [a] = true) (hg : s.good = true) : s'.good = true := by
  cases a <;> simp only [step] at hs <;> (repeat' split at hs) <;>
    cases hs <;> simp_all [writesOk]

theorem writesOk_cons (a : Action) (rest : List Action) :
    writesOk (a :: rest) = (writesOk [a] && writesOk rest) := by
  cases a with
  | workerWrite out => cases out <;> simp [writesOk]
  | _ => simp [writesOk]

theorem run_good {s s' : State} {acts : List Action} (hr : run s acts = some s')
    (ha : writesOk acts = true) (hg : s.good = true) : s'.good = true := by
  induction acts generalizing s with
  | nil =>
    simp only [run, Option.some.injEq] at hr
    exact hr ▸ hg
  | cons a rest ih =>
    simp only [run] at hr
    rw [writesOk_cons, Bool.and_eq_true] at ha
    cases hstep : step s a with
    | none => simp [hstep] at hr
    | some s1 =>
      rw [hstep] at hr
      exact ih hr ha.2 (step_good hstep ha.1 hg)

theorem step_queue {s s' : State} {a : Action} (hs : step s a = some s')
    (ha : isLog a = false) (hq : s.q = []) : s'.q = [] := by
  cases a <;> simp only [step] at hs <;> (repeat' split at hs) <;>
    cases hs <;> simp_all [isLog]

theorem run_queue {s s' : State} {acts : List Action} (hr : run s acts = some s')
    (ha : acts.all (fun a => !isLog a) = true) (hq : s.q = []) : s'.q = [] := by
  induction acts generalizing s with
  | nil =>
    simp only [run, Option.some.injEq] at hr
    exact hr ▸ hq
  | cons a rest ih =>
    simp only [run] at hr
    simp only [List.all_cons, Bool.and_eq_true, Bool.not_eq_true'] at ha
    cases hstep : step s a with
    | none => simp [hstep] at hr
    | some s1 =>
      rw [hstep] at hr
      exact ih hr ha.2 (step_queue hstep ha.1 hq)

theorem render_append (as bs : List String) :
    render (as ++ bs) = render as ++ render bs := by
  induction as with
  | nil => simp [render, String.empty_append]
  | cons x xs ih => simp [render, ih, String.append_assoc]

theorem cycles_drain (q : List String) (s : State) (hw : s.worker = .waiting)
    (hq : s.q = q) :
    ∃ s', run s (cycles q.length) = some s' ∧ s'.worker = .waiting ∧ Drains s s' q := by
  induction q generalizing s with
  | nil =>
    refine ⟨s, rfl, hw, ?_⟩
    constructor <;> simp [hq, render, String.append_empty]
  | cons x rest ih =>
    by_cases hog : s.fileOpen = true ∧ s.good = true
    · obtain ⟨ho, hg⟩ := hog
      obtain ⟨s', hr, hw', hd⟩ := ih
        { s with q := rest, content := s.content ++ x ++ "\n",
                 written := s.written ++ [x], consumed := s.consumed ++ [x],
                 worker := .waiting } rfl rfl
      refine ⟨s', ?_, hw', ?_⟩
      · simpa [cycles, run, step, hw, hq, ho, hg] using hr
      · have h1 := hd.opened ho hg
        constructor <;>
          simp_all [Drains.queue hd, Drains.consumed hd, Drains.flag hd, Drains.sink hd,
            Drains.state hd, Drains.dtor hd, Drains.pushed hd, render, String.append_assoc]
    · obtain ⟨s', hr, hw', hd⟩ := ih
        { s with q := rest, consumed := s.consumed ++ [x], worker := .waiting } rfl rfl
      refine ⟨s', ?_, hw', ?_⟩
      · cases ho : s.fileOpen <;> cases hg : s.good <;>
          simp_all [cycles, run, step]
      · have h1 := hd.shut
        constructor <;>
          simp_all [Drains.queue hd, Drains.consumed hd, Drains.flag hd, Drains.sink hd,
            Drains.state hd, Drains.dtor hd, Drains.pushed hd]

theorem empty_reach (s : State) (hw : s.worker ≠ .done) :
    ∃ s', run s (emptySchedule s) = some s' ∧ s'.worker = .waiting
      ∧ Drains s s' (inHand s.worker ++ s.q) := by
  cases hpc : s.worker with
  | waiting =>
    obtain ⟨s', hr, hw', hd⟩ := cycles_drain s.q s hpc rfl
    exact ⟨s', by simpa [emptySchedule, toWait, hpc] using hr, hw', by simpa [inHand] using hd⟩
  | notifying =>
    obtain ⟨s', hr, hw', hd⟩ := cycles_drain s.q { s with worker := .waiting } rfl rfl
    refine ⟨s', ?_, hw', ?_⟩
    · simpa [emptySchedule, toWait, hpc, run, step] using hr
    · obtain ⟨d1, d2, d3, d4, d5, d6, d7, d8, d9⟩ := hd
      exact ⟨d1, by simpa [inHand] using d2, d3, d4, d5, d6, d7,
        by simpa [inHand] using d8, d9⟩
  | done => exact absurd hpc hw
  | holding item =>
    by_cases hog : s.fileOpen = true ∧ s.good = true
    · obtain ⟨ho, hg⟩ := hog
      obtain ⟨s', hr, hw', hd⟩ := cycles_drain s.q
        { s with content := s.content ++ item ++ "\n", written := s.written ++ [item],
                 consumed := s.consumed ++ [item], worker := .waiting } rfl rfl
      refine ⟨s', ?_, hw', ?_⟩
      · simpa [emptySchedule, toWait, hpc, run, step, ho, hg] using hr
      · have h1 := hd.opened ho hg
        constructor <;>
          simp_all [Drains.queue hd, Drains.consumed hd, Drains.flag hd, Drains.sink hd,
            Drains.state hd, Drains.dtor hd, Drains.pushed hd, inHand, render,
            String.append_assoc]
    · obtain ⟨s', hr, hw', hd⟩ := cycles_drain s.q
        { s with consumed := s.consumed ++ [item], worker := .waiting } rfl rfl
      refine ⟨s', ?_, hw', ?_⟩
      · cases ho : s.fileOpen <;> cases hg : s.good <;>
          simp_all [emptySchedule, toWait, run, step]
      · have h1 := hd.shut
        constructor <;>
          simp_all [Drains.queue hd, Drains.consumed hd, Drains.flag hd, Drains.sink hd,
            Drains.state hd, Drains.dtor hd, Drains.pushed hd, inHand]

theorem drain_reach (s : State) (he : s.exit_flag = true) (hw : s.worker ≠ .done) :
    ∃ s', run s (drainSchedule s) = some s' ∧ s'.worker = .done
      ∧ Drains s s' (inHand s.worker ++ s.q) := by
  obtain ⟨s1, hr, hw1, hd⟩ := empty_reach s hw
  refine ⟨{ s1 with worker := .done }, ?_, rfl, ?_⟩
  · have hf : s1.exit_flag = true := hd.flag.trans he
    simp [drainSchedule, run_append, hr, run, step, hw1, hd.queue, hf]
  · obtain ⟨d1, d2, d3, d4, d5, d6, d7, d8, d9⟩ := hd
    exact ⟨d1, d2, d3, d4, d5, d6, d7, d8, d9⟩

theorem step_done_empty {s s' : State} {a : Action} (hs : step s a = some s')
    (ha : isLog a = false) (he : s.exit_flag = true) (hq : s.worker = .done → s.q = []) :
    s'.exit_flag = true ∧ (s'.worker = .done → s'.q = []) := by
  cases a <;> simp only [step] at hs <;> (repeat' split at hs) <;>
    cases hs <;> simp_all [isLog]

theorem run_done_empty {s s' : State} {acts : List Action} (hr : run s acts = some s')
    (ha : acts.all (fun a => !isLog a) = true) (he : s.exit_flag = true)
    (hq : s.worker = .done → s.q = []) : s'.worker = .done → s'.q = [] := by
  induction acts generalizing s with
  | nil =>
    simp only [run, Option.some.injEq] at hr
    exact hr ▸ hq
  | cons a rest ih =>
    simp only [run] at hr
    simp only [List.all_cons, Bool.and_eq_true, Bool.not_eq_true'] at ha
    cases hstep : step s a with
    | none => simp [hstep] at hr
    | some s1 =>
      rw [hstep] at hr
      have h1 := step_done_empty hstep ha.1 he hq
      exact ih hr ha.2 h1.1 h1.2

theorem step_before_destroy {s s' : State} {a : Action} (hs : step s a = some s')
    (ha : a ≠ .destroy) (he : s.exit_flag = false) (hw : s.worker ≠ .done) :
    s'.exit_flag = false ∧ s'.worker ≠ .done := by
  cases a <;> simp only [step] at hs <;> (repeat' split at hs) <;>
    cases hs <;> simp_all

theorem step_destroy {s s' : State} (hs : step s .destroy = some s') :
    s'.exit_flag = true ∧ s'.worker = s.worker := by
  simp only [step] at hs
  split at hs <;> cases hs
  simp

theorem run_before_destroy {s s' : State} {acts : List Action} (hr : run s acts = some s')
    (ha : noLogAfterDestroy acts = true) (he : s.exit_flag = false)
    (hw : s.worker ≠ .done) : s'.worker = .done → s'.q = [] := by
  induction acts generalizing s with
  | nil =>
    simp only [run, Option.some.injEq] at hr
    subst hr
    exact fun h => absurd h hw
  | cons a rest ih =>
    simp only [run] at hr
    cases hstep : step s a with
    | none => simp [hstep] at hr
    | some s1 =>
      rw [hstep] at hr
      by_cases hd : a = .destroy
      · subst hd
        have h1 := step_destroy hstep
        exact run_done_empty hr (by simpa [noLogAfterDestroy] using ha) h1.1
          (fun h => absurd (h1.2 ▸ h) hw)
      · have h1 := step_before_destroy hstep hd he hw
        have ha' : noLogAfterDestroy rest = true := by
          cases a <;> simp_all [noLogAfterDestroy]
        exact ih hr ha' h1.1 h1.2

theorem submitted_length (acts : List Action) :
    (submitted acts).length = (acts.filter isLog).length := by
  induction acts with
  | nil => rfl
  | cons a rest ih =>
    simp only [submitted, List.length_map] at ih ⊢
    cases a <;> simp [tagged, isLog, ih]

theorem held_submitted {opened : Bool} {c0 : String} {s : State} {acts : List Action}
    (hr : run (init opened c0) acts = some s) (item : String)
    (hw : s.worker = .holding item) : item ∈ submitted acts := by
  rw [← conserve_reach hr, hw]
  simp [inHand]

/-! ## The claims -/

/-- C10, as stated, fails: on an open sink the insertion of a dequeued line fails after
three bytes; the line is then neither among the written lines, nor in `item`, nor in the
queue, although it was pushed. -/
theorem conservation_counterexample :
    run (init true "old\n") actsTorn = some stateTorn
      ∧ stateTorn.fileOpen = true
      ∧ stateTorn.written ++ inHand stateTorn.worker ++ stateTorn.q
          ≠ stateTorn.pushed.map Prod.snd := by
  decide

/-- C10, amended: with an open sink, in every reachable state the lines the worker has
taken through its write step, then the line it holds in `item` (if any), then the queue
front to back, are together the list of all pushed lines in push order; at most one line
is held; the lines written to the sink are a prefix of the lines taken through the write
step, and as long as no insertion has failed they are all of them, so that then written
lines, held line and queue are together the pushed lines and the file is the old content
followed by the written lines, each with its newline. -/
theorem conservation (c0 : String) (acts : List Action) (s : State)
    (hr : run (init true c0) acts = some s) :
    s.consumed ++ inHand s.worker ++ s.q = s.pushed.map Prod.snd
      ∧ s.pushed.map Prod.snd = submitted acts
      ∧ (inHand s.worker).length ≤ 1
      ∧ s.written <+: s.consumed
      ∧ (writesOk acts = true → s.good = true)
      ∧ (s.good = true →
          s.written ++ inHand s.worker ++ s.q = s.pushed.map Prod.snd
            ∧ s.content = c0 ++ render s.written) := by
  have hI := inv_reach hr
  refine ⟨hI.conserve, ?_, ?_, hI.ordered, fun hw => run_good hr hw rfl, ?_⟩
  · rw [pushed_reach hr, submitted]
  · cases s.worker <;> simp [inHand]
  · intro hg
    refine ⟨?_, (hI.intact hg).2⟩
    rw [(hI.intact hg).1]
    exact hI.conserve

theorem conservation_witness :
    run (init true "old\n") actsWrite = some stateWrite
      ∧ stateWrite.good = true
      ∧ stateWrite.written ++ inHand stateWrite.worker ++ stateWrite.q
          = stateWrite.pushed.map Prod.snd
      ∧ stateWrite.content = "old\n" ++ render stateWrite.written :=
  ⟨by decide, rfl,
    (conservation "old\n" actsWrite stateWrite (by decide)).2.2.2.2.2 rfl⟩

/-- C1: in every reachable state the lines written to the sink are a prefix of the lines in
the order of their pushes: they are the lines of the first `written.length` pushes, and for
every producer the lines of that producer among them are a prefix of the lines that
producer pushed, in the order it pushed them. -/
theorem fifo_order (opened : Bool) (c0 : String) (acts : List Action) (s : State)
    (hr : run (init opened c0) acts = some s) :
    s.written <+: submitted acts
      ∧ s.written = ((tagged acts).take s.written.length).map Prod.snd
      ∧ ∀ p, linesOf p ((tagged acts).take s.written.length) <+: linesOf p (tagged acts) := by
  have hI := inv_reach hr
  have hc := conserve_reach hr
  have hpre : s.written <+: submitted acts := by
    refine hI.ordered.trans ?_
    rw [← hc, List.append_assoc]
    exact List.prefix_append _ _
  refine ⟨hpre, ?_, ?_⟩
  · obtain ⟨t, ht⟩ := hpre
    rw [List.map_take, ← submitted, ← ht, List.take_left' rfl]
  · intro p
    exact List.IsPrefix.map _ (List.IsPrefix.filter _ ( List.take_prefix _ _))

theorem fifo_order_witness :
    run (init true "old\n") actsWrite = some stateWrite
      ∧ stateWrite.written <+: submitted actsWrite :=
  ⟨by decide, (fifo_order true "old\n" actsWrite stateWrite (by decide)).1⟩

/-- C5, as stated, fails: the line `log(INFO, "start")` enqueues is dequeued by the worker,
its insertion fails after three bytes, and the file holds `t [` instead of the line and a
newline. -/
theorem persisted_format_counterexample :
    run (init true "") actsStartTorn = some stateStartTorn
      ∧ stateStartTorn.fileOpen = true
      ∧ stateStartTorn.content = "t ["
      ∧ stateStartTorn.content ≠ "" ++ formatLine "t" INFO "start" ++ "\n" := by
  decide

/-- C5, amended: the line `log` enqueues is the timestamp, a blank, the label in brackets
(`INFO`, `WARN` for `WARNING`, `ERROR`), a blank and the message text, and `log` pushes
exactly that line at the back of the queue; whatever line the worker holds is such an
enqueued line, and its insertion into the open sink, when it succeeds, appends that line
followed by one newline: a logged line that is dequeued and written ends up in the file as
line plus newline. With `log(INFO, "start")` and `log(ERROR, "boom")` written and
`waitEmpty` returned, the file has gained a line ending in `[INFO] start` and a line ending
in `[ERROR] boom`. -/
theorem persisted_format (c0 ts msg ts1 ts2 : String) (level : Level) (producer : Nat)
    (acts : List Action) (s : State) (hr : run (init true c0) acts = some s) :
    (formatLine ts INFO msg = ts ++ " [" ++ "INFO" ++ "] " ++ msg
        ∧ formatLine ts WARNING msg = ts ++ " [" ++ "WARN" ++ "] " ++ msg
        ∧ formatLine ts ERROR msg = ts ++ " [" ++ "ERROR" ++ "] " ++ msg)
      ∧ (∃ s1, step s (.log producer ts level msg) = some s1
          ∧ s1.q = s.q ++ [formatLine ts level msg])
      ∧ (∀ item, s.worker = .holding item →
          item ∈ submitted acts
            ∧ (s.good = true → ∃ s1, step s (.workerWrite .ok) = some s1
                ∧ s1.content = s.content ++ item ++ "\n"))
      ∧ (∃ s3, run (init true c0) [.log producer ts level msg, .workerWake, .workerWrite .ok]
            = some s3
          ∧ s3.written = [formatLine ts level msg]
          ∧ s3.content = c0 ++ formatLine ts level msg ++ "\n")
      ∧ (∃ s9, run (init true c0) (actsScenario ts1 ts2) = some s9
          ∧ step s9 .waitEmpty = some s9
          ∧ s9.content
              = c0 ++ (ts1 ++ " " ++ "[INFO] start") ++ "\n"
                  ++ (ts2 ++ " " ++ "[ERROR] boom") ++ "\n") := by
  have hI := inv_reach hr
  refine ⟨⟨rfl, rfl, rfl⟩, ⟨_, rfl, rfl⟩, ?_, ⟨_, rfl, rfl, rfl⟩, ⟨_, rfl, rfl, ?_⟩⟩
  · intro item hw
    refine ⟨held_submitted hr item hw, fun hg => ?_⟩
    have ho : s.fileOpen = true :=
      hI.sinkOpen rfl (fun hf => by simp [hI.finished_done hf] at hw)
    simp only [step, hw, ho, hg]
    exact ⟨_, rfl, rfl⟩
  · show c0 ++ formatLine ts1 INFO "start" ++ "\n" ++ formatLine ts2 ERROR "boom" ++ "\n" = _
    have h1 : formatLine ts1 INFO "start" = ts1 ++ " " ++ "[INFO] start" := by
      show ts1 ++ " [" ++ "INFO" ++ "] " ++ "start" = _
      simp only [String.append_assoc]
      rfl
    have h2 : formatLine ts2 ERROR "boom" = ts2 ++ " " ++ "[ERROR] boom" := by
      show ts2 ++ " [" ++ "ERROR" ++ "] " ++ "boom" = _
      simp only [String.append_assoc]
      rfl
    rw [h1, h2]

theorem persisted_format_witness :
    run (init true "old\n") actsPop = some statePop
      ∧ formatLine "2026-01-01 10:00:00" WARNING "low memory"
          = "2026-01-01 10:00:00" ++ " [" ++ "WARN" ++ "] " ++ "low memory"
      ∧ "t [INFO] a" ∈ submitted actsPop :=
  ⟨by decide,
    (persisted_format "old\n" "2026-01-01 10:00:00" "low memory" "t" "t" WARNING 1
      actsPop statePop (by decide)).1.2.1,
    ((persisted_format "old\n" "2026-01-01 10:00:00" "low memory" "t" "t" WARNING 1
      actsPop statePop (by decide)).2.2.1 "t [INFO] a" rfl).1⟩

/-- C6, as stated, fails: for the level value 3 the label between the brackets of the
enqueued line is `UNK`, not `UNKNOWN`. -/
theorem unknown_label_counterexample :
    step (init true "") (.log 1 "t" 3 "m")
        = some { init true "" with q := ["t [UNK] m"], pushed := [(1, "t [UNK] m")] }
      ∧ formatLine "t" 3 "m" ≠ "t" ++ " [" ++ "UNKNOWN" ++ "] " ++ "m" := by
  decide

/-- C6, amended: for every level value outside `INFO`, `WARNING`, `ERROR`, `log` does not
fail and the line it enqueues carries the label `UNK` between the brackets; `UNKNOWN` is
the fallback label of the synchronous variant's `levelToString`. -/
theorem unknown_label (level : Level) (ts msg : String) (producer : Nat) (s : State)
    (h0 : level ≠ INFO) (h1 : level ≠ WARNING) (h2 : level ≠ ERROR) :
    (∃ s', step s (.log producer ts level msg) = some s'
        ∧ s'.q = s.q ++ [ts ++ " [" ++ "UNK" ++ "] " ++ msg])
      ∧ levelToStr level = "UNK"
      ∧ SyncLogger.levelToString level = "UNKNOWN" := by
  have hl : levelToStr level = "UNK" := by simp [levelToStr, h0, h1, h2]
  refine ⟨⟨_, rfl, ?_⟩, hl, ?_⟩
  · simp [formatLine, hl]
  · simp [SyncLogger.levelToString, h0, h1, h2]

theorem unknown_label_witness :
    (3 : Level) ≠ INFO ∧ (3 : Level) ≠ WARNING ∧ (3 : Level) ≠ ERROR
      ∧ levelToStr 3 = "UNK" :=
  ⟨by decide, by decide, by decide,
    (unknown_label 3 "t" "m" 1 (init true "") (by decide) (by decide) (by decide)).2.1⟩

/-- C4, as stated, fails: after the destructor has set `exit_flag`, a `log` call still
pushes its line, so the queue changes. -/
theorem log_after_shutdown_counterexample :
    step (init true "old\n") .destroy = some stateShutdown
      ∧ stateShutdown.exit_flag = true
      ∧ step stateShutdown (.log 1 "t" INFO "late")
          = some { stateShutdown with q := ["t [INFO] late"],
                                      pushed := [(1, "t [INFO] late")] }
      ∧ ["t [INFO] late"] ≠ stateShutdown.q := by
  decide

/-- C4, amended: `log` does not read `exit_flag`: once shutdown has been requested, a call
to `log` is admitted like any other, it appends its formatted line at the back of the queue
and changes nothing else of the `Logger`. -/
theorem log_after_shutdown (s : State) (producer : Nat) (ts msg : String) (level : Level)
    (he : s.exit_flag = true) :
    ∃ s', step s (.log producer ts level msg) = some s'
      ∧ s'.q = s.q ++ [formatLine ts level msg]
      ∧ s'.exit_flag = true ∧ s'.fileOpen = s.fileOpen ∧ s'.content = s.content
      ∧ s'.worker = s.worker ∧ s'.dtor = s.dtor :=
  ⟨_, rfl, rfl, he, rfl, rfl, rfl, rfl⟩

theorem log_after_shutdown_witness :
    stateShutdown.exit_flag = true
      ∧ ∃ s', step stateShutdown (.log 1 "t" INFO "late") = some s'
          ∧ s'.q = stateShutdown.q ++ [formatLine "t" INFO "late"]
          ∧ s'.exit_flag = true ∧ s'.fileOpen = stateShutdown.fileOpen
          ∧ s'.content = stateShutdown.content
          ∧ s'.worker = stateShutdown.worker ∧ s'.dtor = stateShutdown.dtor :=
  ⟨rfl, log_after_shutdown stateShutdown 1 "t" "late" INFO rfl⟩

/-- C8: `waitEmpty` returns exactly in the states whose queue is empty (with an empty
queue it returns at the first test of its predicate), and returning leaves the state as it
is; after a return, whatever the other threads do short of a `log` call, the queue is
still empty, so a second `waitEmpty` returns at once and again leaves the state as it
is. -/
theorem waitEmpty_idempotent (s s2 : State) (acts : List Action) :
    ((∃ t, step s .waitEmpty = some t) ↔ s.q = [])
      ∧ (s.q = [] → step s .waitEmpty = some s)
      ∧ (∀ s1, step s .waitEmpty = some s1 → s1 = s)
      ∧ (∀ s1, step s .waitEmpty = some s1 →
          acts.all (fun a => !isLog a) = true → run s1 acts = some s2 →
            step s2 .waitEmpty = some s2) := by
  have hret : ∀ u : State, u.q = [] → step u .waitEmpty = some u := by
    intro u hq
    simp [step, hq]
  have hemp : ∀ u t : State, step u .waitEmpty = some t → u.q = [] ∧ t = u := by
    intro u t h
    cases hq : u.q with
    | nil =>
      rw [hret u hq] at h
      exact ⟨rfl, (Option.some.inj h).symm⟩
    | cons x rest => simp [step, hq] at h
  refine ⟨⟨fun ⟨t, h⟩ => (hemp s t h).1, fun hq => ⟨s, hret s hq⟩⟩, hret s,
    fun s1 h => (hemp s s1 h).2, ?_⟩
  intro s1 h hno hr
  obtain ⟨hq, hs1⟩ := hemp s s1 h
  exact hret s2 (run_queue hr hno (hs1 ▸ hq))

theorem waitEmpty_idempotent_witness :
    stateIdle.q = []
      ∧ step stateIdle .waitEmpty = some stateIdle
      ∧ run stateIdle [.destroy, .workerWake] = some stateIdleDone
      ∧ step stateIdleDone .waitEmpty = some stateIdleDone :=
  ⟨rfl,
    (waitEmpty_idempotent stateIdle stateIdleDone [.destroy, .workerWake]).2.1 rfl,
    by decide,
    (waitEmpty_idempotent stateIdle stateIdleDone [.destroy, .workerWake]).2.2.2
      stateIdle (by decide) (by decide) (by decide)⟩

/-- C2 fails on the code: one line is logged, the worker dequeues it (lines 123-124) and
releases the lock; `waitEmpty` called now finds `q.empty()` and returns, while the line is
still in the worker's `item` and the file is untouched. -/
theorem waitEmpty_returns_before_write :
    run (init true "") actsRace = some stateRace
      ∧ step stateRace .waitEmpty = some stateRace
      ∧ submitted actsRace = ["t [INFO] a"]
      ∧ stateRace.worker = .holding "t [INFO] a"
      ∧ stateRace.written = []
      ∧ stateRace.content = "" := by
  decide

/-- C3, as stated, fails: two log calls complete before the destructor sets `exit_flag`,
the sink is open, the first insertion fails after three bytes; the worker returns with the
flag set and the queue empty, but the file holds `old` and the cut line `t [` instead of
the two formatted lines. -/
theorem shutdown_no_loss_counterexample :
    run (init true "old\n") actsShutdownTorn = some stateDoneTorn
      ∧ noLogAfterDestroy actsShutdownTorn = true
      ∧ (actsShutdownTorn.filter isLog).length = 2
      ∧ stateDoneTorn.worker = .done
      ∧ stateDoneTorn.fileOpen = true
      ∧ stateDoneTorn.written ≠ submitted actsShutdownTorn
      ∧ stateDoneTorn.content ≠ "old\n" ++ render (submitted actsShutdownTorn) := by
  decide

/-- C3, amended: on a Logger whose sink is open, in an execution with `K` log calls, none
of them after the destructor has set `exit_flag`: whenever the worker has returned,
`exit_flag` is set, the queue is empty and the worker has taken exactly the `K` formatted
lines through its write step, each once, in push order; if no insertion has failed, the
file is then the old content followed by exactly those `K` lines. `join` (and so the
closing of the file) is possible only once the worker has returned, and once the flag is
set the worker, left to run, does return in such a state. -/
theorem shutdown_no_loss (c0 : String) (acts : List Action) (s : State) (K : Nat)
    (hr : run (init true c0) acts = some s)
    (hb : noLogAfterDestroy acts = true)
    (hK : (acts.filter isLog).length = K) :
    (s.worker = .done →
        s.exit_flag = true ∧ s.q = [] ∧ s.consumed = submitted acts
          ∧ s.consumed.length = K
          ∧ (s.good = true →
              s.written = submitted acts ∧ s.written.length = K
                ∧ s.content = c0 ++ render (submitted acts)))
      ∧ (writesOk acts = true → s.good = true)
      ∧ (∀ s', step s .join = some s' → s.worker = .done)
      ∧ (s.exit_flag = true → s.worker ≠ .done →
          ∃ s', run s (drainSchedule s) = some s' ∧ s'.worker = .done ∧ s'.q = []
            ∧ s'.consumed = submitted acts
            ∧ (s.good = true →
                s'.written = submitted acts ∧ s'.written.length = K
                  ∧ s'.content = c0 ++ render (submitted acts))) := by
  have hI := inv_reach hr
  have hc := conserve_reach hr
  have hlen : (submitted acts).length = K := by rw [submitted_length, hK]
  refine ⟨?_, fun hw => run_good hr hw rfl, ?_, ?_⟩
  · intro hd
    have hq : s.q = [] := run_before_destroy hr hb rfl (by simp [init]) hd
    have hcs : s.consumed = submitted acts := by
      rw [← hc]
      simp [hd, hq, inHand]
    refine ⟨hI.done_exit hd, hq, hcs, by rw [hcs, hlen], fun hg => ?_⟩
    have hw : s.written = submitted acts := (hI.intact hg).1.trans hcs
    exact ⟨hw, by rw [hw, hlen], by rw [← hw]; exact (hI.intact hg).2⟩
  · intro s' hj
    simp only [step] at hj
    split at hj
    · assumption
    · cases hj
  · intro he hw
    obtain ⟨s', hr', hd', hD⟩ := drain_reach s he hw
    have ho : s.fileOpen = true :=
      hI.sinkOpen rfl (fun hf => hw (hI.finished_done hf))
    have hcs : s'.consumed = submitted acts := by
      rw [hD.consumed, ← hc, List.append_assoc]
    refine ⟨s', hr', hd', hD.queue, hcs, fun hg => ?_⟩
    have hw' : s'.written = submitted acts := by
      rw [(hD.opened ho hg).1, (hI.intact hg).1, ← hc, List.append_assoc]
    refine ⟨hw', by rw [hw', hlen], ?_⟩
    rw [(hD.opened ho hg).2, (hI.intact hg).2, String.append_assoc, ← render_append,
      ← hw', (hD.opened ho hg).1]

theorem shutdown_no_loss_witness :
    run (init true "old\n") actsShutdown = some stateDone
      ∧ noLogAfterDestroy actsShutdown = true
      ∧ (actsShutdown.filter isLog).length = 2
      ∧ stateDone.worker = .done
      ∧ stateDone.exit_flag = true ∧ stateDone.q = []
      ∧ stateDone.consumed = submitted actsShutdown
      ∧ stateDone.consumed.length = 2
      ∧ (stateDone.good = true →
          stateDone.written = submitted actsShutdown ∧ stateDone.written.length = 2
            ∧ stateDone.content = "old\n" ++ render (submitted actsShutdown)) :=
  ⟨by decide, by decide, by decide, rfl,
    (shutdown_no_loss "old\n" actsShutdown stateDone 2
      (by decide) (by decide) (by decide)).1 rfl⟩

/-- C7: if the sink failed to open, then in every reachable state the file content is what
it was, nothing has been written, every pushed line is either consumed by the worker, in
its `item`, or still queued (each once, in push order); a `log` call always goes through;
the worker, left to run, empties the queue, consuming every submitted line without a
write; and once `exit_flag` is set it returns, the file still unchanged. -/
theorem sink_unavailable (c0 : String) (acts : List Action) (s : State)
    (hr : run (init false c0) acts = some s) :
    (s.content = c0 ∧ s.written = [] ∧ s.fileOpen = false)
      ∧ s.consumed ++ inHand s.worker ++ s.q = submitted acts
      ∧ (∀ producer ts level msg, ∃ s', step s (.log producer ts level msg) = some s'
          ∧ s'.content = c0 ∧ s'.q = s.q ++ [formatLine ts level msg])
      ∧ (s.worker ≠ .done →
          ∃ s', run s (emptySchedule s) = some s' ∧ s'.q = []
            ∧ s'.consumed = submitted acts ∧ s'.written = [] ∧ s'.content = c0)
      ∧ (s.exit_flag = true → s.worker ≠ .done →
          ∃ s', run s (drainSchedule s) = some s' ∧ s'.worker = .done ∧ s'.q = []
            ∧ s'.consumed = submitted acts ∧ s'.written = [] ∧ s'.content = c0) := by
  have hI := inv_reach hr
  have hc := conserve_reach hr
  obtain ⟨ho, hw, hb⟩ := hI.sinkShut rfl
  refine ⟨⟨hb, hw, ho⟩, hc, ?_, ?_, ?_⟩
  · intro producer ts level msg
    exact ⟨_, rfl, hb, rfl⟩
  · intro hpc
    obtain ⟨s', hr', _, hD⟩ := empty_reach s hpc
    refine ⟨s', hr', hD.queue, ?_, ?_, ?_⟩
    · rw [hD.consumed, ← hc, List.append_assoc]
    · rw [(hD.shut ho).1, hw]
    · rw [(hD.shut ho).2, hb]
  · intro he hpc
    obtain ⟨s', hr', hd', hD⟩ := drain_reach s he hpc
    refine ⟨s', hr', hd', hD.queue, ?_, ?_, ?_⟩
    · rw [hD.consumed, ← hc, List.append_assoc]
    · rw [(hD.shut ho).1, hw]
    · rw [(hD.shut ho).2, hb]

theorem sink_unavailable_witness :
    run (init false "old\n") actsShutdown = some stateDoneShut
      ∧ stateDoneShut.content = "old\n" ∧ stateDoneShut.written = []
      ∧ stateDoneShut.fileOpen = false
      ∧ stateDoneShut.consumed = submitted actsShutdown :=
  ⟨by decide,
    (sink_unavailable "old\n" actsShutdown stateDoneShut (by decide)).1.1,
    (sink_unavailable "old\n" actsShutdown stateDoneShut (by decide)).1.2.1,
    (sink_unavailable "old\n" actsShutdown stateDoneShut (by decide)).1.2.2,
    by decide⟩

end AsyncLogger
